import Mathlib

/-!
# go-cranker connector, v1: a shallow embedding

The development follows `pkg/connector/v1/connectorsocket.go` (the per-socket
protocol: `readRequest`, `pumpRequestBody`, `decomposeMethodAndURL`,
`waitForRequest`, `doReq`, `pumpResponse`) and `pkg/connector/v1/connector.go`
(`NewConnector`, `Connect`, `Shutdown`).

Conventions.
* A Go `string` or `[]byte` is a list of characters, one per byte.
* A Go `error` value is an `Option GoError`; `none` is `nil`.
* A run-time panic is an explicit outcome.
* What the Go standard library and the WebSocket library compute (`url.Parse`,
  `http.NewRequest`, `Header.Write`, the HTTP client) is taken as a parameter,
  the record `Lib`.
* One `message.Read(s.buf)` delivers what the connection's buffered reader holds
  of the message, as far as it fits `s.buf`; it does not wait for the rest. The
  reader's size comes from the socket's dialer (`readBufferSize`, `readLimit`).
* Goroutines are not interleaved: a `go` statement is recorded, as a flag or as
  an event of a trace.
-/

namespace Cranker

/-- A Go string or byte slice, one character per byte. -/
abbrev GoString := List Char

/-- Go error values met by the connector. -/
inductive GoError
  | EOF
  | ErrClosedPipe
  | other (msg : String)
  deriving DecidableEq

/-- Result of a Go call that may panic. -/
inductive Outcome (α : Type)
  | ret (a : α)
  | panic (msg : String)
  deriving DecidableEq

/-- The two data message types `NextReader` can report. -/
inductive MessageType
  | TextMessage
  | BinaryMessage
  deriving DecidableEq

/-- One WebSocket data message. -/
structure Message where
  messageType : MessageType
  payload : GoString
  deriving DecidableEq

/-- The body argument handed to `http.NewRequest`: `nil`, or the read end of a
fresh `io.Pipe`. -/
inductive Body
  | nil
  | pipe
  deriving DecidableEq

/-- An `*http.Response` as far as `pumpResponse` looks at it. `bodyErr` is the
error, if any, with which reading the body ends after `body` was delivered. -/
structure Response (H : Type) where
  proto : GoString
  status : GoString
  header : H
  body : GoString
  bodyErr : Option GoError

/-- The library functions the connector calls, over the library's types:
`U` for `*url.URL`, `H` for `http.Header`, `R` for `*http.Request`. -/
structure Lib (U H R : Type) where
  /-- The function `url.Parse`. -/
  urlParse : GoString → Except GoError U
  /-- The method `(*url.URL).String`. -/
  urlString : U → GoString
  /-- The call `http.NewRequest(method, url, body)`. -/
  newRequest : GoString → GoString → Body → Except GoError R
  /-- The two statements `req.URL = serviceURL.ResolveReference(req.URL)` and
  `req.RequestURI = ""`. -/
  resolve : U → R → R
  /-- The method `(*http.Client).Do`. -/
  clientDo : R → Except GoError (Response H)
  /-- The method `Header.Write`: the header lines in wire form. -/
  headerWrite : H → GoString
  /-- Largest capacity `make` grants a slice of socket pointers -/
  maxSliceCap : Nat

/-- The WebSocket connection `s.wss`, seen from the connector. -/
structure Conn where
  /-- Messages from the router that are still to be read, in arrival order -/
  incoming : List Message
  /-- Error `NextReader` reports once `incoming` is used up -/
  readErr : GoError
  /-- The write error of the connection, if it has one -/
  writeErr : Option GoError
  /-- Messages written to the router so far, oldest first -/
  sent : List Message
  closed : Bool
  deriving DecidableEq

/-- The `*websocket.Dialer` of the socket, as far as it bears on reading: the
connection it dials takes its read buffer size from `ReadBufferSize`. -/
structure Dialer where
  ReadBufferSize : Nat
  deriving DecidableEq

/-- The fields of `connectorSocket` the protocol code reads; the connection
`wss` is passed separately. `buf` is `none` for a nil slice and `some n` for a
slice of length `n`. -/
structure connectorSocket where
  routerURL : GoString
  serviceName : GoString
  targetURL : GoString
  dialer : Dialer
  buf : Option Nat
  deriving DecidableEq

def markerReqBodyPending : GoString := ['_', '1']
def markerReqHasNoBody : GoString := ['_', '2']
def markerReqBodyEnded : GoString := ['_', '3']

/-- The length `len(s.buf)`. -/
def bufLen (s : connectorSocket) : Nat := s.buf.getD 0

/-- The call `s.wss.NextReader()`: the next data message, or the connection's read
error. -/
def NextReader (wss : Conn) : Except GoError (Message × Conn) :=
  match wss.incoming with
  | [] => .error wss.readErr
  | m :: rest => .ok (m, { wss with incoming := rest })

/-- Size of the buffered reader of a dialed connection: 4096 bytes when the
dialer names none, and never below the 125 bytes of a control frame. -/
def readBufferSize (d : Dialer) : Nat :=
  if d.ReadBufferSize = 0 then 4096
  else if d.ReadBufferSize < 125 then 125
  else d.ReadBufferSize

/-- Length of the header of an unmasked frame with `len` bytes of payload. -/
def frameHeaderLen (len : Nat) : Nat :=
  if len < 126 then 2 else if len < 65536 then 4 else 10

/-- The most payload bytes one `Read` can take from the connection: what its
buffered reader holds behind the frame header (4092 bytes for a payload of 126
bytes or more under the default dialer). -/
def readLimit (d : Dialer) (len : Nat) : Nat :=
  readBufferSize d - frameHeaderLen len

/-- The call `message.Read(buf)` on a fresh message reader, with `len(buf) = n`,
for a message sent as one frame whose bytes have arrived: an empty message gives
`(0, io.EOF)`; otherwise one `Read` delivers, without error, the bytes the
connection's buffered reader holds, as far as they fit `buf`. It does not wait
for the rest of the message. -/
def messageRead (d : Dialer) (payload : GoString) (n : Nat) : Nat × Option GoError :=
  if payload = [] then (0, some .EOF)
  else (min (min payload.length n) (readLimit d payload.length), none)

/-- The call `bufio.Reader.ReadString(delim)` over a byte slice: the bytes up to and
including the first `delim`, or `io.EOF` when there is none. -/
def ReadString (delim : Char) : GoString → Except GoError GoString
  | [] => .error .EOF
  | c :: cs =>
    if c = delim then .ok [c]
    else match ReadString delim cs with
      | .ok l => .ok (c :: l)
      | .error e => .error e

/-- The call `strings.Split(line, " ")`. -/
def splitSpace : GoString → List GoString
  | [] => [[]]
  | c :: cs =>
    if c = ' ' then [] :: splitSpace cs
    else match splitSpace cs with
      | [] => [[c]]
      | p :: ps => (c :: p) :: ps

/-- The call `strings.TrimPrefix(s, pre)`. -/
def TrimPrefix (s pre : GoString) : GoString :=
  if pre.isPrefixOf s then s.drop pre.length else s

/-- The function `decomposeMethodAndURL`: `parts[0], parts[1]` of the line split at spaces;
`parts[1]` panics when there is one part only. -/
def decomposeMethodAndURL (line : GoString) : Outcome (GoString × GoString) :=
  match splitSpace line with
  | p0 :: p1 :: _ => .ret (p0, p1)
  | _ => .panic "index out of range [1] with length 1"

/-- What `readRequest` hands back, and whether it ran
`go s.pumpRequestBody(w)`. -/
structure ReadResult (R : Type) where
  req : Option R
  err : Option GoError
  pumpStarted : Bool
  deriving DecidableEq

/-- Lines 164-169 of `readRequest`: the error check after `http.NewRequest`. -/
def finishRequest {R : Type} (r : Except GoError R) (pumpStarted : Bool) : ReadResult R :=
  match r with
  | .error e => ⟨none, some e, pumpStarted⟩
  | .ok req => ⟨some req, none, pumpStarted⟩

/-- The method `connectorSocket.readRequest`. -/
def readRequest {U H R : Type} (lib : Lib U H R) (s : connectorSocket) (wss : Conn) :
    Outcome (ReadResult R × Conn) :=
  match NextReader wss with
  | .error err => .ret (⟨none, some err, false⟩, wss)
  | .ok (message, wss1) =>
    if message.messageType ≠ .TextMessage then
      -- `return nil, err`, where `err` is the nil error of `NextReader`
      .ret (⟨none, none, false⟩, wss1)
    else
      let n := (messageRead s.dialer message.payload (bufLen s)).1
      let err := (messageRead s.dialer message.payload (bufLen s)).2
      if err ≠ none ∧ err ≠ some .EOF then .ret (⟨none, err, false⟩, wss1)
      else
        -- `s.buf[0:n]`
        let data := message.payload.take n
        match ReadString '\n' data with
        | .error e => .ret (⟨none, some e, false⟩, wss1)
        | .ok firstline =>
          match decomposeMethodAndURL firstline with
          | .panic msg => .panic msg
          | .ret (method, url) =>
            let url := TrimPrefix url ('/' :: s.serviceName)
            if n < 2 then .panic "slice bounds out of range"
            else if data.drop (n - 2) = markerReqHasNoBody then
              .ret (finishRequest (lib.newRequest method url .nil) false, wss1)
            else
              .ret (finishRequest (lib.newRequest method url .pipe) true, wss1)

/-- The write end of the `io.Pipe` that feeds the local request body.
`closed` is `none` while the writer is open, `some none` after `Close()` and
`some (some e)` after `CloseWithError(e)`; `readerClosed` tells whether the
read end was closed by the consumer. -/
structure PipeWriter where
  written : GoString
  closed : Option (Option GoError)
  readerClosed : Bool
  deriving DecidableEq

/-- The call `out.Close()`. -/
def PipeWriter.Close (out : PipeWriter) : PipeWriter :=
  { out with closed := some none }

/-- The call `io.CopyBuffer(out, message, s.buf)` from a message reader into
the pipe: it panics on a non-nil empty buffer; a write on a pipe closed at either end fails
with `io.ErrClosedPipe`; an empty message causes no write. -/
def copyToPipe (out : PipeWriter) (payload : GoString) (buf : Option Nat) :
    Outcome (Except GoError PipeWriter) :=
  if buf = some 0 then .panic "empty buffer in CopyBuffer"
  else if payload = [] then .ret (.ok out)
  else if out.closed.isSome ∨ out.readerClosed = true then .ret (.error .ErrClosedPipe)
  else .ret (.ok { out with written := out.written ++ payload })

/-- The `for` loop of `pumpRequestBody` over the messages still to come;
`readErr` is what `NextReader` reports after the last of them. The result is
the returned error, the pipe, and the messages left unread. -/
def pumpLoop (s : connectorSocket) (readErr : GoError) :
    List Message → PipeWriter → Outcome (Option GoError × PipeWriter × List Message)
  | [], out => .ret (some readErr, out, [])
  | message :: rest, out =>
    match message.messageType with
    | .BinaryMessage =>
      match copyToPipe out message.payload s.buf with
      | .panic msg => .panic msg
      | .ret (.error e) => .ret (some e, out, rest)
      | .ret (.ok out1) => pumpLoop s readErr rest out1
    | .TextMessage =>
      let n := (messageRead s.dialer message.payload (bufLen s)).1
      let err := (messageRead s.dialer message.payload (bufLen s)).2
      if n = 2 ∧ markerReqBodyEnded = (message.payload.take n).take 2 then
        .ret (none, out.Close, rest)
      else if err ≠ none ∨ err ≠ some .EOF then
        -- `return err`: the error of `message.Read`, nil for a non-empty message
        .ret (err, out, rest)
      else pumpLoop s readErr rest out

/-- The method `connectorSocket.pumpRequestBody`. -/
def pumpRequestBody (s : connectorSocket) (wss : Conn) (out : PipeWriter) :
    Outcome (Option GoError × PipeWriter × Conn) :=
  match pumpLoop s wss.readErr wss.incoming out with
  | .panic msg => .panic msg
  | .ret (err, out1, rest) => .ret (err, out1, { wss with incoming := rest })

/-- The method `connectorSocket.doReq`; `req` is `none` for a nil
`*http.Request`, whose `req.URL` cannot be read. -/
def doReq {U H R : Type} (lib : Lib U H R) (s : connectorSocket) (req : Option R) :
    Outcome (Except GoError (Response H)) :=
  match lib.urlParse s.targetURL with
  | .error e => .ret (.error e)
  | .ok serviceURL =>
    match req with
    | none => .panic "invalid memory address or nil pointer dereference"
    | some r => .ret (lib.clientDo (lib.resolve serviceURL r))

/-- The call `s.wss.WriteMessage`: it fails on a closed connection or one with
a write error; otherwise the message goes out. -/
def WriteMessage (wss : Conn) (m : Message) : Option GoError × Conn :=
  if wss.closed = true then (some (.other "use of closed network connection"), wss)
  else match wss.writeErr with
    | some e => (some e, wss)
    | none => (none, { wss with sent := wss.sent ++ [m] })

/-- The method `connectorSocket.close`, on the connection. -/
def connectorSocket.close (wss : Conn) : Conn :=
  { wss with closed := true }

/-- Result of `pumpResponse`: the returned error or panic, the connection after
the deferred calls ran, and whether `resp.Body.Close()` ran. -/
structure PumpResponseResult where
  result : Outcome (Option GoError)
  wss : Conn
  bodyClosed : Bool
  deriving DecidableEq

/-- The method `connectorSocket.pumpResponse`. The error of `WriteMessage` is
overwritten unread; `NextWriter` fails when the connection cannot be written;
`io.CopyBuffer` panics on a non-nil empty buffer and otherwise copies the body
into the one binary message that the deferred `w.Close()` completes (on the wire
the library may cut that message into several frames). The deferred calls run
on every path: `w.Close()`, `resp.Body.Close()`, `s.close()`. -/
def pumpResponse {U H R : Type} (lib : Lib U H R) (s : connectorSocket)
    (resp : Response H) (wss : Conn) : PumpResponseResult :=
  let headerBuf := resp.proto ++ [' '] ++ resp.status ++ ['\r', '\n'] ++ lib.headerWrite resp.header
  let wss1 := (WriteMessage wss ⟨.TextMessage, headerBuf⟩).2
  if wss1.closed = true then
    ⟨.ret (some (.other "use of closed network connection")), connectorSocket.close wss1, true⟩
  else match wss1.writeErr with
    | some e => ⟨.ret (some e), connectorSocket.close wss1, true⟩
    | none =>
      if s.buf = some 0 then
        ⟨.panic "empty buffer in CopyBuffer",
          connectorSocket.close { wss1 with sent := wss1.sent ++ [⟨.BinaryMessage, []⟩] }, true⟩
      else
        let wss2 := { wss1 with sent := wss1.sent ++ [⟨.BinaryMessage, resp.body⟩] }
        match resp.bodyErr with
        | some e => ⟨.ret (some e), connectorSocket.close wss2, true⟩
        | none => ⟨.ret none, connectorSocket.close wss2, true⟩

/-- Result of `waitForRequest`: the returned error or panic, the arguments of
the calls of `s.doReq` made on the way, and the connection. -/
structure WaitResult (R : Type) where
  result : Outcome (Option GoError)
  doReqCalls : List (Option R)
  wss : Conn

/-- The method `connectorSocket.waitForRequest`. -/
def waitForRequest {U H R : Type} (lib : Lib U H R) (s : connectorSocket) (wss : Conn) :
    WaitResult R :=
  match readRequest lib s wss with
  | .panic msg => ⟨.panic msg, [], wss⟩
  | .ret (r, wss1) =>
    match r.err with
    | some err => ⟨.ret (some err), [], wss1⟩
    | none =>
      match doReq lib s r.req with
      | .panic msg => ⟨.panic msg, [r.req], wss1⟩
      | .ret (.error err) => ⟨.ret (some err), [r.req], wss1⟩
      | .ret (.ok resp) =>
        let p := pumpResponse lib s resp wss1
        ⟨p.result, [r.req], p.wss⟩

/-! ## The connector (`connector.go`) -/

/-- The record `config.RouterConfig`, of which `NewConnector` reads `BufferSize`. -/
structure RouterConfig where
  BufferSize : Int
  deriving DecidableEq

/-- An `*http.Client`, opaque. -/
structure HTTPClient where
  id : Nat
  deriving DecidableEq

/-- The record `config.ServiceConfig`. -/
structure ServiceConfig where
  HTTPClient : HTTPClient
  deriving DecidableEq

/-- The `sync.Pool` of buffers: its `New` makes a slice of `bufsize` bytes. -/
structure BufferPool where
  bufsize : Int
  deriving DecidableEq

/-- Modelled from the spec: `cranker.ConnectorSocket` with its constructor
`cranker.NewConnectorSocket` (package `internal/cranker`, not among the
sources). The spec's RouterSocket holds the router endpoint, the service
descriptor, a reference to the shared buffer pool and to the HTTP client; the
handle records the six arguments it was constructed with. -/
structure ConnectorSocket where
  buffers : BufferPool
  routerURL : GoString
  serviceName : GoString
  serviceURL : GoString
  routerConfig : RouterConfig
  httpClient : HTTPClient
  deriving DecidableEq

/-- The call `cranker.NewConnectorSocket(buffers, routerURL, serviceName,
serviceURL, routerConfig, httpClient)`. -/
def NewConnectorSocket (buffers : BufferPool) (routerURL serviceName serviceURL : GoString)
    (rc : RouterConfig) (hc : HTTPClient) : ConnectorSocket :=
  ⟨buffers, routerURL, serviceName, serviceURL, rc, hc⟩

/-- The struct `Connector`; `muxLocked` is the state of `*c.mux`, and a nil `*url.URL` is
`none`. -/
structure Connector (U : Type) where
  routerURLs : List (Option U)
  serviceURL : Option U
  serviceFacingHC : HTTPClient
  routerConfig : RouterConfig
  connectorSockets : List ConnectorSocket
  muxLocked : Bool
  buffers : BufferPool

/-- The function `NewConnector`. -/
def NewConnector (U : Type) (rc : RouterConfig) (sc : ServiceConfig) : Connector U :=
  let bufsize : Int := 8 * 1024
  let bufsize := if rc.BufferSize > bufsize then rc.BufferSize else bufsize
  { routerURLs := [], serviceURL := none, serviceFacingHC := sc.HTTPClient,
    routerConfig := rc, connectorSockets := [], muxLocked := false,
    buffers := ⟨bufsize⟩ }

/-- What `Connect` and `Shutdown` do that others can observe, in program
order. -/
inductive Event
  | lock
  | unlock
  | newSocket (cs : ConnectorSocket)
  | wgAdd
  | goConnect (cs : ConnectorSocket)
  | goClose (cs : ConnectorSocket)
  | wgWait
  deriving DecidableEq

/-- How a call ends: it never gets the mutex, it panics, or it returns. -/
inductive CallOutcome
  | blocked
  | panicked (msg : String)
  | returned (err : Option GoError)
  deriving DecidableEq

structure CallResult (U : Type) where
  outcome : CallOutcome
  c : Connector U
  trace : List Event

/-- A Go `int` (64 bits) holding the mathematical value `x`. -/
def wrapInt (x : Int) : Int := (x + 2 ^ 63) % 2 ^ 64 - 2 ^ 63

/-- The first loop of `Connect`: `c.routerURLs[i], err = url.Parse(...)` and
`return err` at the first failure; the slots not reached stay nil. -/
def parseRouterURLs {U H R : Type} (lib : Lib U H R) :
    List GoString → List (Option U) × Option GoError
  | [] => ([], none)
  | r :: rs =>
    match lib.urlParse r with
    | .error e => (none :: rs.map (fun _ => none), some e)
    | .ok u => (some u :: (parseRouterURLs lib rs).1, (parseRouterURLs lib rs).2)

/-- The inner loop `for j := 0; j < slidingWindow; j++`, with `k` rounds left:
the sockets appended and the events. -/
def windowLoop (cs : ConnectorSocket) : Nat → List ConnectorSocket × List Event
  | 0 => ([], [])
  | k + 1 =>
    (cs :: (windowLoop cs k).1,
      [Event.newSocket cs, Event.wgAdd, Event.goConnect cs] ++ (windowLoop cs k).2)

/-- The outer loop over `c.routerURLs`; `c.routerURLs[i].String()` on a nil
URL panics. -/
def socketLoop {U H R : Type} (lib : Lib U H R) (c : Connector U)
    (slidingWindow : Int) (serviceName serviceURL : GoString) :
    List (Option U) → Outcome (List ConnectorSocket × List Event)
  | [] => .ret ([], [])
  | none :: _ =>
    if slidingWindow.toNat = 0 then .ret ([], [])
    else .panic "invalid memory address or nil pointer dereference"
  | some u :: us =>
    let cs := NewConnectorSocket c.buffers (lib.urlString u) serviceName serviceURL
      c.routerConfig c.serviceFacingHC
    match socketLoop lib c slidingWindow serviceName serviceURL us with
    | .panic msg => .panic msg
    | .ret (socks, evs) =>
      .ret ((windowLoop cs slidingWindow.toNat).1 ++ socks,
        (windowLoop cs slidingWindow.toNat).2 ++ evs)

/-- The method `Connector.Connect`. -/
def Connect {U H R : Type} (lib : Lib U H R) (c : Connector U)
    (routerURLs : List GoString) (slidingWindow : Int)
    (serviceName serviceURL : GoString) : CallResult U :=
  if c.muxLocked = true then ⟨.blocked, c, []⟩
  else
    let c1 := { c with muxLocked := true }
    match lib.urlParse serviceURL with
    | .error err => ⟨.returned (some err), { c1 with serviceURL := none }, [.lock]⟩
    | .ok su =>
      let c2 := { c1 with serviceURL := some su }
      let noOfRouterURLs : Int := routerURLs.length
      let parsed := parseRouterURLs lib routerURLs
      let c3 := { c2 with routerURLs := parsed.1 }
      match parsed.2 with
      | some err => ⟨.returned (some err), c3, [.lock]⟩
      | none =>
        let cap := wrapInt (noOfRouterURLs * slidingWindow)
        if cap < 0 ∨ (lib.maxSliceCap : Int) < cap then
          ⟨.panicked "makeslice: cap out of range", c3, [.lock]⟩
        else
          match socketLoop lib c3 slidingWindow serviceName serviceURL c3.routerURLs with
          | .panic msg => ⟨.panicked msg, c3, [.lock]⟩
          | .ret (socks, evs) =>
            ⟨.returned none, { c3 with connectorSockets := socks, muxLocked := false },
              [.lock] ++ evs ++ [.unlock, .wgWait]⟩

/-- The method `Connector.Shutdown`; the deferred `Unlock` runs after `wg.Wait()`. -/
def Shutdown {U : Type} (c : Connector U) : CallResult U :=
  if c.muxLocked = true then ⟨.blocked, c, []⟩
  else
    ⟨.returned none, { c with muxLocked := false },
      [.lock] ++ c.connectorSockets.map Event.goClose ++ [.wgWait, .unlock]⟩

/-! ## A reference library, for evaluating the code on concrete inputs -/

/-- Requests as the reference library builds them: `http.NewRequest` sets the
method and the URL and starts from an empty header. -/
structure RefRequest where
  method : GoString
  url : GoString
  header : List (GoString × GoString)
  body : Body
  deriving DecidableEq

/-- Bytes that `url.Parse` rejects as control characters. -/
def hasCTLByte (s : GoString) : Bool :=
  s.any (fun c => decide (c.toNat < 32) || decide (c.toNat = 127))

/-- Bytes of an HTTP token other than letters and digits. -/
def tokenPunct : List Nat := [33, 35, 36, 37, 38, 39, 42, 43, 45, 46, 94, 95, 96, 124, 126]

/-- Whether `http.NewRequest` accepts the method: a non-empty HTTP token. -/
def validMethod (m : GoString) : Bool :=
  !m.isEmpty && m.all (fun c => c.isAlphanum || tokenPunct.contains c.toNat)

/-- A stand-in for the Go libraries on plain inputs. `url.Parse` refuses
control characters and keeps the text; `http.NewRequest` defaults an empty
method to GET, refuses a method that is no token, and returns a request without
headers; no local service listens; a header is its list of lines. Theorems are
stated for every `Lib`; this one only serves closed evaluations. -/
def refLib : Lib GoString (List (GoString × GoString)) RefRequest where
  urlParse := fun u =>
    if hasCTLByte u then .error (.other "net/url: invalid control character in URL") else .ok u
  urlString := fun u => u
  newRequest := fun m u b =>
    let m := if m.isEmpty then "GET".toList else m
    if !validMethod m then .error (.other "net/http: invalid method")
    else if hasCTLByte u then .error (.other "net/url: invalid control character in URL")
    else .ok ⟨m, u, [], b⟩
  resolve := fun base r => { r with url := base ++ r.url }
  clientDo := fun _ => .error (.other "connection refused")
  headerWrite := fun h => (h.map (fun kv => kv.1 ++ ": ".toList ++ kv.2 ++ "\r\n".toList)).flatten
  maxSliceCap := 2 ^ 45

/-- A socket for service `svc` with the default dialer and an 8 KiB buffer. -/
def svcSocket : connectorSocket :=
  ⟨"ws://router:8080".toList, "svc".toList, "http://localhost:9000".toList, ⟨0⟩, some 8192⟩

/-- A connection on which the router sent `msgs` and then went away. -/
def connOf (msgs : List Message) : Conn :=
  ⟨msgs, .other "websocket: close 1006 (abnormal closure)", none, [], false⟩

/-- The error of the first router URL, in the order given, that `url.Parse`
rejects. -/
def firstRouterError {U H R : Type} (lib : Lib U H R) : List GoString → Option GoError
  | [] => none
  | r :: rs =>
    match lib.urlParse r with
    | .error e => some e
    | .ok _ => firstRouterError lib rs

/-- The parse error of the configuration: that of the service URL if it does
not parse, else that of the first router URL that does not. -/
def firstParseError {U H R : Type} (lib : Lib U H R) (serviceURL : GoString)
    (routerURLs : List GoString) : Option GoError :=
  match lib.urlParse serviceURL with
  | .error e => some e
  | .ok _ => firstRouterError lib routerURLs

/-- The number `n` of bytes the single `message.Read(s.buf)` of `readRequest`
delivers of a non-empty payload. -/
def readLen (s : connectorSocket) (payload : GoString) : Nat :=
  min (min payload.length (bufLen s)) (readLimit s.dialer payload.length)

/-- The bytes `s.buf[0:n]` that `readRequest` works on, for a text message
with the given payload. -/
def headData (s : connectorSocket) (payload : GoString) : GoString :=
  payload.take (readLen s payload)

/-- The head `METHOD SP TARGET SP HTTP-VER CRLF rest`. -/
def headOf (method target ver rest : GoString) : GoString :=
  method ++ ' ' :: (target ++ ' ' :: (ver ++ '\r' :: '\n' :: rest))

/-! ## Lemmas on the string helpers -/

theorem ReadString_append (delim : Char) (l rest : GoString) (h : delim ∉ l) :
    ReadString delim (l ++ delim :: rest) = .ok (l ++ [delim]) := by
  induction l with
  | nil => simp [ReadString]
  | cons c cs ih =>
    have hc : c ≠ delim := fun e => h (by simp [e])
    have hcs : delim ∉ cs := fun e => h (by simp [e])
    simp [ReadString, hc, ih hcs]

theorem splitSpace_ne_nil (l : GoString) : splitSpace l ≠ [] := by
  cases l with
  | nil => simp [splitSpace]
  | cons c cs =>
    unfold splitSpace
    split
    · simp
    · split <;> simp

theorem splitSpace_append (m rest : GoString) (h : ' ' ∉ m) :
    splitSpace (m ++ ' ' :: rest) = m :: splitSpace rest := by
  induction m with
  | nil => simp [splitSpace]
  | cons c cs ih =>
    have hc : c ≠ ' ' := fun e => h (by simp [e])
    have hcs : ' ' ∉ cs := fun e => h (by simp [e])
    simp [splitSpace, hc, ih hcs]

theorem decomposeMethodAndURL_line (m t rest : GoString) (hm : ' ' ∉ m) (ht : ' ' ∉ t) :
    decomposeMethodAndURL (m ++ ' ' :: (t ++ ' ' :: rest)) = .ret (m, t) := by
  unfold decomposeMethodAndURL
  rw [splitSpace_append m _ hm, splitSpace_append t _ ht]

theorem readLen_le (s : connectorSocket) (payload : GoString) :
    readLen s payload ≤ payload.length := by
  unfold readLen
  omega

theorem readLen_of_length_eq (s : connectorSocket) (p q : GoString)
    (h : p.length = q.length) : readLen s p = readLen s q := by
  simp [readLen, h]

theorem messageRead_of_ne_nil (s : connectorSocket) (payload : GoString) (h : payload ≠ []) :
    messageRead s.dialer payload (bufLen s) = (readLen s payload, none) := by
  simp [messageRead, readLen, h]

theorem headData_of_whole (s : connectorSocket) (payload : GoString)
    (h : payload.length ≤ readLen s payload) : headData s payload = payload := by
  unfold headData
  exact List.take_of_length_le h

theorem headData_append (s : connectorSocket) (l rest : GoString)
    (h : l.length ≤ readLen s (l ++ rest)) :
    headData s (l ++ rest) = l ++ rest.take (readLen s (l ++ rest) - l.length) := by
  unfold headData
  rw [List.take_append_eq_append_take, List.take_of_length_le h]

/-- The outcome of `readRequest` on a text message of which the single `Read`
delivers the first line, `l` followed by a newline: the line is decomposed, and
the last two bytes delivered choose between no body and a piped body with its
pump. -/
theorem readRequest_text (U H R : Type) (lib : Lib U H R) (s : connectorSocket) (wss : Conn)
    (l rest : GoString) (more : List Message)
    (hin : wss.incoming = ⟨.TextMessage, l ++ '\n' :: rest⟩ :: more)
    (hl : '\n' ∉ l) (hfit : l.length + 1 ≤ readLen s (l ++ '\n' :: rest)) :
    readRequest lib s wss =
      match decomposeMethodAndURL (l ++ ['\n']) with
      | .panic msg => .panic msg
      | .ret (method, url) =>
        if readLen s (l ++ '\n' :: rest) < 2 then .panic "slice bounds out of range"
        else if (headData s (l ++ '\n' :: rest)).drop
            (readLen s (l ++ '\n' :: rest) - 2) = markerReqHasNoBody then
          .ret (finishRequest (lib.newRequest method
            (TrimPrefix url ('/' :: s.serviceName)) .nil) false, { wss with incoming := more })
        else
          .ret (finishRequest (lib.newRequest method
            (TrimPrefix url ('/' :: s.serviceName)) .pipe) true, { wss with incoming := more }) := by
  have hne : l ++ '\n' :: rest ≠ [] := by simp
  have hdata : headData s (l ++ '\n' :: rest) =
      l ++ '\n' :: (rest.take (readLen s (l ++ '\n' :: rest) - (l.length + 1))) := by
    have hsplit : l ++ '\n' :: rest = (l ++ ['\n']) ++ rest := by simp
    have h1 : (l ++ ['\n']).length ≤ readLen s ((l ++ ['\n']) ++ rest) := by
      rw [← hsplit]; simpa using hfit
    have := headData_append s (l ++ ['\n']) rest h1
    rw [← hsplit] at this
    simpa using this
  have hrs : ReadString '\n' (headData s (l ++ '\n' :: rest)) = .ok (l ++ ['\n']) := by
    rw [hdata]; exact ReadString_append '\n' l _ hl
  have key : List.take (readLen s (l ++ '\n' :: rest)) (l ++ '\n' :: rest)
      = headData s (l ++ '\n' :: rest) := rfl
  unfold readRequest
  simp only [NextReader, hin, messageRead_of_ne_nil s _ hne, ne_eq, not_true_eq_false, if_false,
    false_and, key, hrs]

theorem headOf_length (method target ver rest : GoString) :
    (headOf method target ver rest).length
      = method.length + target.length + ver.length + 4 + rest.length := by
  simp [headOf]; omega

/-- On a head with a well-formed first line that the single `Read` delivers,
`readRequest` calls `http.NewRequest` with the method, the target trimmed of the
service prefix, and a body chosen by the last two bytes delivered. -/
theorem readRequest_wellformed (U H R : Type) (lib : Lib U H R) (s : connectorSocket)
    (wss : Conn) (method target ver rest : GoString) (more : List Message)
    (hin : wss.incoming = ⟨.TextMessage, headOf method target ver rest⟩ :: more)
    (hm : ' ' ∉ method) (ht : ' ' ∉ target)
    (hnl : '\n' ∉ method ++ target ++ ver)
    (hfit : (headOf method target ver []).length ≤ readLen s (headOf method target ver rest)) :
    readRequest lib s wss =
      if (headData s (headOf method target ver rest)).drop
          (readLen s (headOf method target ver rest) - 2) = markerReqHasNoBody then
        .ret (finishRequest (lib.newRequest method
          (TrimPrefix target ('/' :: s.serviceName)) .nil) false, { wss with incoming := more })
      else
        .ret (finishRequest (lib.newRequest method
          (TrimPrefix target ('/' :: s.serviceName)) .pipe) true, { wss with incoming := more }) := by
  have hshape : headOf method target ver rest
      = (method ++ ' ' :: (target ++ ' ' :: (ver ++ ['\r']))) ++ '\n' :: rest := by
    simp [headOf]
  have hl : '\n' ∉ method ++ ' ' :: (target ++ ' ' :: (ver ++ ['\r'])) := by
    simp only [List.mem_append, List.mem_cons, not_or] at hnl ⊢
    simp only [List.mem_singleton, List.not_mem_nil, or_false]
    refine ⟨hnl.1.1, by decide, hnl.1.2, by decide, hnl.2, by decide⟩
  have hlen : (method ++ ' ' :: (target ++ ' ' :: (ver ++ ['\r']))).length + 1
      ≤ readLen s (headOf method target ver rest) := by
    rw [headOf_length] at hfit
    simp only [List.length_append, List.length_cons, List.length_nil] at hfit ⊢
    omega
  have hd : decomposeMethodAndURL ((method ++ ' ' :: (target ++ ' ' :: (ver ++ ['\r']))) ++ ['\n'])
      = .ret (method, target) := by
    have := decomposeMethodAndURL_line method target (ver ++ ['\r', '\n']) hm ht
    simpa using this
  have h2 : ¬ readLen s (headOf method target ver rest) < 2 := by
    simp only [List.length_append, List.length_cons, List.length_nil] at hlen
    omega
  rw [hshape] at hin hlen h2 ⊢
  rw [readRequest_text U H R lib s wss _ rest more hin hl hlen, hd]
  simp only [if_neg h2]

/-- When the single `Read` delivers the whole head, the two bytes `s.buf[n-2:n]`
are the last two bytes of the frame. -/
theorem headData_marker (s : connectorSocket) (method target ver rest mk : GoString)
    (hmk : mk.length = 2)
    (hwhole : (headOf method target ver (rest ++ mk)).length
      ≤ readLen s (headOf method target ver (rest ++ mk))) :
    (headData s (headOf method target ver (rest ++ mk))).drop
      (readLen s (headOf method target ver (rest ++ mk)) - 2) = mk := by
  have hn : readLen s (headOf method target ver (rest ++ mk))
      = (headOf method target ver (rest ++ mk)).length :=
    Nat.le_antisymm (readLen_le s _) hwhole
  rw [headData_of_whole s _ hwhole, hn]
  have hsplit : headOf method target ver (rest ++ mk) = headOf method target ver rest ++ mk := by
    simp [headOf]
  have hlen : (headOf method target ver (rest ++ mk)).length - 2
      = (headOf method target ver rest).length := by
    rw [hsplit, List.length_append, hmk]; omega
  rw [hlen, hsplit, List.drop_left]

/-- The outcome of `readRequest` on a head that the single `Read` delivers
whole, with a well-formed first line and the last two bytes `mk`. -/
theorem readRequest_marker (U H R : Type) (lib : Lib U H R) (s : connectorSocket)
    (wss : Conn) (method target ver rest mk : GoString) (more : List Message)
    (hin : wss.incoming = ⟨.TextMessage, headOf method target ver (rest ++ mk)⟩ :: more)
    (hm : ' ' ∉ method) (ht : ' ' ∉ target)
    (hnl : '\n' ∉ method ++ target ++ ver)
    (hmk : mk.length = 2)
    (hwhole : (headOf method target ver (rest ++ mk)).length
      ≤ readLen s (headOf method target ver (rest ++ mk))) :
    readRequest lib s wss =
      if mk = markerReqHasNoBody then
        .ret (finishRequest (lib.newRequest method
          (TrimPrefix target ('/' :: s.serviceName)) .nil) false, { wss with incoming := more })
      else
        .ret (finishRequest (lib.newRequest method
          (TrimPrefix target ('/' :: s.serviceName)) .pipe) true, { wss with incoming := more }) := by
  have hfit0 : (headOf method target ver []).length
      ≤ readLen s (headOf method target ver (rest ++ mk)) := by
    refine Nat.le_trans ?_ hwhole
    rw [headOf_length, headOf_length]
    simp only [List.length_nil]
    omega
  rw [readRequest_wellformed U H R lib s wss method target ver (rest ++ mk) more hin hm ht hnl hfit0,
    headData_marker s method target ver rest mk hmk hwhole]

/-- C2, as the code behaves: when the first message is a binary message,
`readRequest` returns no request and the nil error of `NextReader`, so
`waitForRequest` does not stop and calls `doReq` with a nil request; with a
target URL that parses, this call panics. -/
theorem readRequest_binary_head_returns_nil_error (U H R : Type) (lib : Lib U H R)
    (s : connectorSocket) (payload : GoString) (more : List Message) (re : GoError)
    (we : Option GoError) (sent : List Message) (cl : Bool) :
    readRequest lib s ⟨⟨.BinaryMessage, payload⟩ :: more, re, we, sent, cl⟩
        = .ret (⟨none, none, false⟩, ⟨more, re, we, sent, cl⟩)
      ∧ (waitForRequest lib s ⟨⟨.BinaryMessage, payload⟩ :: more, re, we, sent, cl⟩).doReqCalls
        = [none]
      ∧ (waitForRequest refLib svcSocket
          (connOf [⟨.BinaryMessage, "GET /svc/health HTTP/1.1\r\n\r\n_2".toList⟩])).result
        = .panic "invalid memory address or nil pointer dereference" := by
  refine ⟨rfl, ?_, by decide⟩
  simp only [waitForRequest, readRequest, NextReader, doReq]
  simp only [ne_eq, reduceCtorEq, not_false_eq_true, if_true]
  cases lib.urlParse s.targetURL <;> rfl

/-- C3 fails on the code: the head `GET /svc/health HTTP/1.1`, `Host: r`, ending
in `_Z`, yields a request, no error, and a started body pump. -/
theorem readRequest_unknown_marker_counterexample :
    readRequest refLib svcSocket
        (connOf [⟨.TextMessage, "GET /svc/health HTTP/1.1\r\nHost: r\r\n\r\n_Z".toList⟩])
      = .ret (⟨some ⟨"GET".toList, "/health".toList, [], .pipe⟩, none, true⟩, connOf []) := by
  decide

/-- C3, amended: on a text head that the single `message.Read(s.buf)` delivers
whole, with a well-formed first line and last two bytes `mk` other than `_2` (so
also when they are neither `_1` nor `_2`), `readRequest` does not fail on the
marker. It starts the body pump and calls `http.NewRequest` with a piped body:
the request is returned when the library accepts method and URL, the library's
error otherwise. That is what it does on the same head ending in `_1`. -/
theorem readRequest_unknown_marker_as_body_pending (U H R : Type) (lib : Lib U H R)
    (s : connectorSocket) (method target ver rest mk : GoString) (more : List Message)
    (re : GoError) (we : Option GoError) (sent : List Message) (cl : Bool)
    (hm : ' ' ∉ method) (ht : ' ' ∉ target)
    (hnl : '\n' ∉ method ++ target ++ ver)
    (hmk : mk.length = 2) (hno : mk ≠ markerReqHasNoBody)
    (hwhole : (headOf method target ver (rest ++ mk)).length
      ≤ readLen s (headOf method target ver (rest ++ mk))) :
    (∀ r, lib.newRequest method (TrimPrefix target ('/' :: s.serviceName)) .pipe = .ok r →
      readRequest lib s ⟨⟨.TextMessage, headOf method target ver (rest ++ mk)⟩ :: more,
          re, we, sent, cl⟩
        = .ret (⟨some r, none, true⟩, ⟨more, re, we, sent, cl⟩))
    ∧ (∀ e, lib.newRequest method (TrimPrefix target ('/' :: s.serviceName)) .pipe = .error e →
      readRequest lib s ⟨⟨.TextMessage, headOf method target ver (rest ++ mk)⟩ :: more,
          re, we, sent, cl⟩
        = .ret (⟨none, some e, true⟩, ⟨more, re, we, sent, cl⟩))
    ∧ readRequest lib s ⟨⟨.TextMessage, headOf method target ver (rest ++ mk)⟩ :: more,
        re, we, sent, cl⟩
      = readRequest lib s
          ⟨⟨.TextMessage, headOf method target ver (rest ++ markerReqBodyPending)⟩ :: more,
            re, we, sent, cl⟩ := by
  have hlen : (headOf method target ver (rest ++ markerReqBodyPending)).length
      = (headOf method target ver (rest ++ mk)).length := by
    rw [headOf_length, headOf_length]
    simp only [List.length_append, hmk, markerReqBodyPending, List.length_cons, List.length_nil]
  have hwhole1 : (headOf method target ver (rest ++ markerReqBodyPending)).length
      ≤ readLen s (headOf method target ver (rest ++ markerReqBodyPending)) := by
    rw [readLen_of_length_eq s _ _ hlen, hlen]
    exact hwhole
  have h1 := readRequest_marker U H R lib s
    ⟨⟨.TextMessage, headOf method target ver (rest ++ mk)⟩ :: more, re, we, sent, cl⟩
    method target ver rest mk more rfl hm ht hnl hmk hwhole
  have h2 := readRequest_marker U H R lib s
    ⟨⟨.TextMessage, headOf method target ver (rest ++ markerReqBodyPending)⟩ :: more,
      re, we, sent, cl⟩
    method target ver rest markerReqBodyPending more rfl hm ht hnl rfl hwhole1
  rw [if_neg hno] at h1
  rw [if_neg (by decide)] at h2
  refine ⟨fun r hr => ?_, fun e he => ?_, h1.trans h2.symm⟩
  · rw [h1, hr]; rfl
  · rw [h1, he]; rfl

/-- The amended C3 at the head `GET /svc/health HTTP/1.1`, `Host: r`, `_Z`: a
request with a piped body and a started pump, as for `_1`. -/
theorem readRequest_unknown_marker_as_body_pending_witness :
    readRequest refLib svcSocket
        (connOf [⟨.TextMessage, "GET /svc/health HTTP/1.1\r\nHost: r\r\n\r\n_Z".toList⟩])
      = .ret (⟨some ⟨"GET".toList, "/health".toList, [], .pipe⟩, none, true⟩, connOf [])
    ∧ readRequest refLib svcSocket
        (connOf [⟨.TextMessage, "GET /svc/health HTTP/1.1\r\nHost: r\r\n\r\n_Z".toList⟩])
      = readRequest refLib svcSocket
        (connOf [⟨.TextMessage, "GET /svc/health HTTP/1.1\r\nHost: r\r\n\r\n_1".toList⟩]) :=
  ⟨(readRequest_unknown_marker_as_body_pending _ _ _ refLib svcSocket
      "GET".toList "/svc/health".toList "HTTP/1.1".toList "Host: r\r\n\r\n".toList "_Z".toList
      [] (.other "websocket: close 1006 (abnormal closure)") none [] false
      (by decide) (by decide) (by decide) (by decide) (by decide) (by decide)).1
      ⟨"GET".toList, "/health".toList, [], .pipe⟩ rfl,
   (readRequest_unknown_marker_as_body_pending _ _ _ refLib svcSocket
      "GET".toList "/svc/health".toList "HTTP/1.1".toList "Host: r\r\n\r\n".toList "_Z".toList
      [] (.other "websocket: close 1006 (abnormal closure)") none [] false
      (by decide) (by decide) (by decide) (by decide) (by decide) (by decide)).2.2⟩

/-- C4 fails on the code: the head `GET /svc/health HTTP/1.1` with the header
lines `Host: r` and `X-A: 1` and the marker `_2` yields a request whose header
set is empty. -/
theorem readRequest_header_lines_counterexample :
    readRequest refLib svcSocket
        (connOf [⟨.TextMessage,
          "GET /svc/health HTTP/1.1\r\nHost: r\r\nX-A: 1\r\n\r\n_2".toList⟩])
      = .ret (⟨some ⟨"GET".toList, "/health".toList, [], .nil⟩, none, false⟩, connOf []) := by
  decide

/-- C4, amended: on a head with a well-formed first line that the single
`message.Read(s.buf)` delivers, whatever follows the first line (`hdrs`: the
header lines, the empty line, the marker), the request `readRequest` constructs
is the one `http.NewRequest` returns for the method, the target trimmed of the
service prefix, and a nil or piped body. The header lines are not among the
arguments: none of them is copied into the request. -/
theorem readRequest_header_lines_not_copied (U H R : Type) (lib : Lib U H R)
    (s : connectorSocket) (method target ver hdrs : GoString) (more : List Message)
    (re : GoError) (we : Option GoError) (sent : List Message) (cl : Bool)
    (hm : ' ' ∉ method) (ht : ' ' ∉ target)
    (hnl : '\n' ∉ method ++ target ++ ver)
    (hfit : (headOf method target ver []).length ≤ readLen s (headOf method target ver hdrs)) :
    ∃ body pump,
      (∀ r, lib.newRequest method (TrimPrefix target ('/' :: s.serviceName)) body = .ok r →
        readRequest lib s ⟨⟨.TextMessage, headOf method target ver hdrs⟩ :: more,
            re, we, sent, cl⟩
          = .ret (⟨some r, none, pump⟩, ⟨more, re, we, sent, cl⟩))
      ∧ (∀ e, lib.newRequest method (TrimPrefix target ('/' :: s.serviceName)) body = .error e →
        readRequest lib s ⟨⟨.TextMessage, headOf method target ver hdrs⟩ :: more,
            re, we, sent, cl⟩
          = .ret (⟨none, some e, pump⟩, ⟨more, re, we, sent, cl⟩)) := by
  have h := readRequest_wellformed U H R lib s
    ⟨⟨.TextMessage, headOf method target ver hdrs⟩ :: more, re, we, sent, cl⟩
    method target ver hdrs more rfl hm ht hnl hfit
  by_cases hmk : (headData s (headOf method target ver hdrs)).drop
      (readLen s (headOf method target ver hdrs) - 2) = markerReqHasNoBody
  · rw [if_pos hmk] at h
    refine ⟨.nil, false, fun r hr => ?_, fun e he => ?_⟩
    · rw [h, hr]; rfl
    · rw [h, he]; rfl
  · rw [if_neg hmk] at h
    refine ⟨.pipe, true, fun r hr => ?_, fun e he => ?_⟩
    · rw [h, hr]; rfl
    · rw [h, he]; rfl

/-- The amended C4 at the head with the lines `Host: r` and `X-A: 1`: the
request returned has the method, the trimmed target, and no header. -/
theorem readRequest_header_lines_not_copied_witness :
    ∃ r pump,
      readRequest refLib svcSocket
          (connOf [⟨.TextMessage,
            "GET /svc/health HTTP/1.1\r\nHost: r\r\nX-A: 1\r\n\r\n_2".toList⟩])
        = .ret (⟨some r, none, pump⟩, connOf [])
      ∧ r.method = "GET".toList ∧ r.url = "/health".toList ∧ r.header = [] :=
  match readRequest_header_lines_not_copied _ _ _ refLib svcSocket
    "GET".toList "/svc/health".toList "HTTP/1.1".toList "Host: r\r\nX-A: 1\r\n\r\n_2".toList
    [] (.other "websocket: close 1006 (abnormal closure)") none [] false
    (by decide) (by decide) (by decide) (by decide) with
  | ⟨body, pump, hok, _⟩ =>
    ⟨⟨"GET".toList, "/health".toList, [], body⟩, pump,
      hok ⟨"GET".toList, "/health".toList, [], body⟩ rfl, rfl, rfl, rfl⟩

/-- C5, as the code behaves: on the text head `GET`, CRLF, CRLF, `_2`, whose
first line has one token, `decomposeMethodAndURL` indexes `parts[1]` of a
one-element list and panics, and so do `readRequest` and `waitForRequest`. -/
theorem readRequest_one_token_line_panics (U H R : Type) (lib : Lib U H R) :
    decomposeMethodAndURL "GET\r\n".toList = .panic "index out of range [1] with length 1"
      ∧ readRequest lib svcSocket (connOf [⟨.TextMessage, "GET\r\n\r\n_2".toList⟩])
        = .panic "index out of range [1] with length 1"
      ∧ (waitForRequest lib svcSocket (connOf [⟨.TextMessage, "GET\r\n\r\n_2".toList⟩])).result
        = .panic "index out of range [1] with length 1" := by
  refine ⟨by decide, rfl, rfl⟩

/-- C8, as the code behaves: on the two-byte text message `_4` received during
the request body, `pumpRequestBody` returns the nil error of `message.Read` and
leaves the sink as it was, neither closed nor closed with an error; on an empty
text message it returns `io.EOF`, the sink again left open. -/
theorem pumpRequestBody_bad_marker_leaves_sink_open (s : connectorSocket)
    (more : List Message) (re : GoError) (we : Option GoError) (sent : List Message)
    (cl : Bool) (out : PipeWriter) :
    pumpRequestBody s ⟨⟨.TextMessage, ['_', '4']⟩ :: more, re, we, sent, cl⟩ out
      = .ret (none, out, ⟨more, re, we, sent, cl⟩)
    ∧ pumpRequestBody s ⟨⟨.TextMessage, []⟩ :: more, re, we, sent, cl⟩ out
      = .ret (some .EOF, out, ⟨more, re, we, sent, cl⟩) := by
  constructor
  · unfold pumpRequestBody pumpLoop
    by_cases h : 2 ≤ bufLen s ∧ 2 ≤ readLimit s.dialer 2
    · have hn : min 2 (min (bufLen s) (readLimit s.dialer 2)) = 2 := by omega
      simp [messageRead, markerReqBodyEnded, h, hn]
    · simp [messageRead, markerReqBodyEnded, h]
  · unfold pumpRequestBody pumpLoop
    simp [messageRead]

/-- C9: on a connection that is open and has no write error, with a buffer
that is nil or non-empty, `pumpResponse` sends exactly two messages, in this
order: one text message made of the protocol, a space, the status, CRLF and the
header lines as `Header.Write` gives them; then one binary message whose payload
is the response body. So the text message comes first, everything after it is
binary, and the binary payloads add up to the body, byte for byte. -/
theorem pumpResponse_head_then_body (U H R : Type) (lib : Lib U H R) (s : connectorSocket)
    (resp : Response H) (wss : Conn)
    (hopen : wss.closed = false) (hw : wss.writeErr = none) (hbuf : s.buf ≠ some 0) :
    ∃ frames : List Message,
      (pumpResponse lib s resp wss).wss.sent
        = wss.sent ++ ⟨.TextMessage,
            resp.proto ++ [' '] ++ resp.status ++ ['\r', '\n'] ++ lib.headerWrite resp.header⟩
          :: frames
      ∧ frames = [⟨.BinaryMessage, resp.body⟩]
      ∧ (∀ m ∈ frames, m.messageType = .BinaryMessage)
      ∧ (frames.map Message.payload).flatten = resp.body
      ∧ ((frames.map Message.payload).flatten).length = resp.body.length
      ∧ (pumpResponse lib s resp wss).result = .ret resp.bodyErr
      ∧ (pumpResponse lib s resp wss).wss.closed = true
      ∧ (pumpResponse lib s resp wss).bodyClosed = true := by
  refine ⟨[⟨.BinaryMessage, resp.body⟩], ?_, rfl, by simp, by simp, by simp, ?_, ?_, ?_⟩
  all_goals
    unfold pumpResponse
    simp only [WriteMessage, hopen, hw, hbuf, Bool.false_eq_true, if_false]
    cases resp.bodyErr <;> simp [connectorSocket.close]

/-- C9 at a `201 Created` response with one header and the body `ok`. -/
theorem pumpResponse_head_then_body_witness :
    ∃ frames : List Message,
      (pumpResponse refLib svcSocket
          ⟨"HTTP/1.1".toList, "201 Created".toList,
            [("Content-Type".toList, "text/plain".toList)], "ok".toList, none⟩
          (connOf [])).wss.sent
        = [] ++ ⟨.TextMessage,
            "HTTP/1.1".toList ++ [' '] ++ "201 Created".toList ++ ['\r', '\n']
              ++ "Content-Type: text/plain\r\n".toList⟩ :: frames
      ∧ frames = [⟨.BinaryMessage, "ok".toList⟩]
      ∧ (∀ m ∈ frames, m.messageType = .BinaryMessage)
      ∧ (frames.map Message.payload).flatten = "ok".toList
      ∧ ((frames.map Message.payload).flatten).length = 2
      ∧ (pumpResponse refLib svcSocket
          ⟨"HTTP/1.1".toList, "201 Created".toList,
            [("Content-Type".toList, "text/plain".toList)], "ok".toList, none⟩
          (connOf [])).result = .ret none
      ∧ (pumpResponse refLib svcSocket
          ⟨"HTTP/1.1".toList, "201 Created".toList,
            [("Content-Type".toList, "text/plain".toList)], "ok".toList, none⟩
          (connOf [])).wss.closed = true
      ∧ (pumpResponse refLib svcSocket
          ⟨"HTTP/1.1".toList, "201 Created".toList,
            [("Content-Type".toList, "text/plain".toList)], "ok".toList, none⟩
          (connOf [])).bodyClosed = true :=
  pumpResponse_head_then_body _ _ _ refLib svcSocket
    ⟨"HTTP/1.1".toList, "201 Created".toList,
      [("Content-Type".toList, "text/plain".toList)], "ok".toList, none⟩
    (connOf []) rfl rfl (by decide)

/-! ## Claims on `Connect` and `Shutdown` -/

theorem parseRouterURLs_ok {U H R : Type} (lib : Lib U H R) :
    ∀ (routerURLs : List GoString) (us : List U),
      routerURLs.map lib.urlParse = us.map Except.ok →
      parseRouterURLs lib routerURLs = (us.map some, none) := by
  intro routerURLs
  induction routerURLs with
  | nil =>
    intro us h
    cases us with
    | nil => rfl
    | cons u us => simp at h
  | cons r rs ih =>
    intro us h
    cases us with
    | nil => simp at h
    | cons u us =>
      simp only [List.map_cons, List.cons.injEq] at h
      simp only [parseRouterURLs, h.1, ih us h.2, List.map_cons]

theorem parseRouterURLs_err {U H R : Type} (lib : Lib U H R) (routerURLs : List GoString) :
    (parseRouterURLs lib routerURLs).2 = firstRouterError lib routerURLs := by
  induction routerURLs with
  | nil => rfl
  | cons r rs ih =>
    unfold parseRouterURLs firstRouterError
    cases h : lib.urlParse r with
    | error e => rfl
    | ok u => simpa using ih

theorem windowLoop_sockets (cs : ConnectorSocket) (k : Nat) :
    (windowLoop cs k).1 = List.replicate k cs := by
  induction k with
  | zero => rfl
  | succ k ih => simp [windowLoop, ih, List.replicate_succ]

theorem windowLoop_events (cs : ConnectorSocket) (k : Nat) :
    Event.unlock ∉ (windowLoop cs k).2 ∧ Event.wgWait ∉ (windowLoop cs k).2 := by
  induction k with
  | zero => simp [windowLoop]
  | succ k ih => simp [windowLoop, ih]

theorem socketLoop_ok {U H R : Type} (lib : Lib U H R) (c : Connector U) (w : Int)
    (name svcURL : GoString) (us : List U) :
    ∃ evs, socketLoop lib c w name svcURL (us.map some)
        = .ret (us.flatMap (fun u => List.replicate w.toNat
            (NewConnectorSocket c.buffers (lib.urlString u) name svcURL
              c.routerConfig c.serviceFacingHC)), evs)
      ∧ Event.unlock ∉ evs ∧ Event.wgWait ∉ evs := by
  induction us with
  | nil => exact ⟨[], rfl, by simp, by simp⟩
  | cons u us ih =>
    obtain ⟨evs, h, h1, h2⟩ := ih
    refine ⟨(windowLoop (NewConnectorSocket c.buffers (lib.urlString u) name svcURL
      c.routerConfig c.serviceFacingHC) w.toNat).2 ++ evs, ?_, ?_, ?_⟩
    · simp only [List.map_cons, socketLoop, h, windowLoop_sockets, List.flatMap_cons]
    · simp [h1, (windowLoop_events _ _).1]
    · simp [h2, (windowLoop_events _ _).2]

theorem wrapInt_of_range (x : Int) (h0 : 0 ≤ x) (h1 : x < 2 ^ 63) : wrapInt x = x := by
  unfold wrapInt
  have : (x + 2 ^ 63) % 2 ^ 64 = x + 2 ^ 63 := Int.emod_eq_of_lt (by omega) (by omega)
  omega

theorem length_flatMap_replicate {α β : Type} (f : α → β) (k : Nat) (l : List α) :
    (l.flatMap (fun a => List.replicate k (f a))).length = l.length * k := by
  induction l with
  | nil => simp
  | cons a l ih => simp [List.flatMap_cons, ih, Nat.succ_mul, Nat.add_comm]

theorem socketLoop_events {U H R : Type} (lib : Lib U H R) (c : Connector U) (w : Int)
    (name svcURL : GoString) :
    ∀ (l : List (Option U)) (socks : List ConnectorSocket) (evs : List Event),
      socketLoop lib c w name svcURL l = .ret (socks, evs) →
      Event.unlock ∉ evs ∧ Event.wgWait ∉ evs := by
  intro l
  induction l with
  | nil =>
    intro socks evs h
    simp only [socketLoop, Outcome.ret.injEq, Prod.mk.injEq] at h
    simp [← h.2]
  | cons o us ih =>
    intro socks evs h
    cases o with
    | none =>
      simp only [socketLoop] at h
      split at h
      · simp only [Outcome.ret.injEq, Prod.mk.injEq] at h
        simp [← h.2]
      · simp at h
    | some u =>
      simp only [socketLoop] at h
      cases hrec : socketLoop lib c w name svcURL us with
      | panic msg => simp [hrec] at h
      | ret p =>
        obtain ⟨socks1, evs1⟩ := p
        simp only [hrec, Outcome.ret.injEq, Prod.mk.injEq] at h
        have h12 := ih socks1 evs1 hrec
        rw [← h.2]
        simp [h12.1, h12.2, (windowLoop_events _ _).1, (windowLoop_events _ _).2]

/-- C1: with router URLs that all parse (to `us`), a service URL that parses
and a sliding window `w ≥ 0`, whenever `Connect` returns nil the socket list is
exactly, for each router in the order given, `w` consecutive sockets constructed
with that router's URL (as `c.routerURLs[i].String()` renders it), the service
name and the service URL: `r * w` sockets in all. And `Connect` does return nil
when the mutex is free and `r * w` is a capacity `make` grants. -/
theorem Connect_socket_list (U H R : Type) (lib : Lib U H R) (c : Connector U)
    (routerURLs : List GoString) (us : List U) (su : U) (w : Int)
    (name svcURL : GoString)
    (hr : routerURLs.map lib.urlParse = us.map Except.ok)
    (hs : lib.urlParse svcURL = .ok su) (hw : 0 ≤ w) :
    ((Connect lib c routerURLs w name svcURL).outcome = .returned none →
      (Connect lib c routerURLs w name svcURL).c.connectorSockets
          = us.flatMap (fun u => List.replicate w.toNat
              (NewConnectorSocket c.buffers (lib.urlString u) name svcURL
                c.routerConfig c.serviceFacingHC))
        ∧ (((Connect lib c routerURLs w name svcURL).c.connectorSockets.length : Nat) : Int)
          = (routerURLs.length : Int) * w)
    ∧ (c.muxLocked = false → (routerURLs.length : Int) * w ≤ lib.maxSliceCap →
        (routerURLs.length : Int) * w < 2 ^ 63 →
        (Connect lib c routerURLs w name svcURL).outcome = .returned none) := by
  have hlen : routerURLs.length = us.length := by
    have := congrArg List.length hr
    simpa using this
  have hparse := parseRouterURLs_ok lib routerURLs us hr
  obtain ⟨evs, hloop, -, -⟩ := socketLoop_ok lib
    { c with muxLocked := true, serviceURL := some su, routerURLs := us.map some }
    w name svcURL us
  cases hmux : c.muxLocked with
  | true =>
    refine ⟨fun h => ?_, fun h => by simp at h⟩
    simp [Connect, hmux] at h
  | false =>
    by_cases hcap : wrapInt ((routerURLs.length : Int) * w) < 0
        ∨ (lib.maxSliceCap : Int) < wrapInt ((routerURLs.length : Int) * w)
    · refine ⟨fun h => ?_, fun _ h1 h2 => ?_⟩
      · simp [Connect, hmux, hs, hparse, hcap] at h
      · have h0 : (0 : Int) ≤ (routerURLs.length : Int) * w :=
          Int.mul_nonneg (Int.ofNat_nonneg _) hw
        rw [wrapInt_of_range _ h0 h2] at hcap
        omega
    · have hout : (Connect lib c routerURLs w name svcURL).outcome = .returned none := by
        simp [Connect, hmux, hs, hparse, hcap, hloop]
      have hsocks : (Connect lib c routerURLs w name svcURL).c.connectorSockets
          = us.flatMap (fun u => List.replicate w.toNat
              (NewConnectorSocket c.buffers (lib.urlString u) name svcURL
                c.routerConfig c.serviceFacingHC)) := by
        simp [Connect, hmux, hs, hparse, hcap, hloop]
      refine ⟨fun _ => ⟨hsocks, ?_⟩, fun _ _ _ => hout⟩
      rw [hsocks, length_flatMap_replicate, hlen]
      push_cast
      rw [Int.toNat_of_nonneg hw]

/-- C1 at two routers and a sliding window of two. -/
theorem Connect_socket_list_witness :
    (Connect refLib (NewConnector GoString ⟨0⟩ ⟨⟨7⟩⟩)
        ["ws://r1:8080".toList, "ws://r2:8080".toList] 2
        "svc".toList "http://localhost:9000".toList).c.connectorSockets
      = [⟨⟨8192⟩, "ws://r1:8080".toList, "svc".toList, "http://localhost:9000".toList, ⟨0⟩, ⟨7⟩⟩,
         ⟨⟨8192⟩, "ws://r1:8080".toList, "svc".toList, "http://localhost:9000".toList, ⟨0⟩, ⟨7⟩⟩,
         ⟨⟨8192⟩, "ws://r2:8080".toList, "svc".toList, "http://localhost:9000".toList, ⟨0⟩, ⟨7⟩⟩,
         ⟨⟨8192⟩, "ws://r2:8080".toList, "svc".toList, "http://localhost:9000".toList, ⟨0⟩, ⟨7⟩⟩]
    ∧ (((Connect refLib (NewConnector GoString ⟨0⟩ ⟨⟨7⟩⟩)
        ["ws://r1:8080".toList, "ws://r2:8080".toList] 2
        "svc".toList "http://localhost:9000".toList).c.connectorSockets.length : Nat) : Int)
      = ((2 : Nat) : Int) * 2 :=
  (Connect_socket_list _ _ _ refLib (NewConnector GoString ⟨0⟩ ⟨⟨7⟩⟩)
    ["ws://r1:8080".toList, "ws://r2:8080".toList]
    ["ws://r1:8080".toList, "ws://r2:8080".toList] "http://localhost:9000".toList 2
    "svc".toList "http://localhost:9000".toList rfl rfl (by decide)).1
    (by decide)

/-- C10: with the mutex free at the call, if the service URL or a router URL
does not parse, `Connect` returns that parse error (the service URL's, else the
first failing router's), constructs no socket (the trace holds the `Lock` only
and the socket list is as before), and leaves the mutex locked, so that
`Shutdown` on the resulting connector never gets the mutex. When `Connect`
returns nil, its trace ends in `Unlock` followed by the wait for the dials, with
no other `Unlock` or wait before them. -/
theorem Connect_parse_error_leaves_mutex_locked (U H R : Type) (lib : Lib U H R)
    (c : Connector U) (routerURLs : List GoString) (w : Int) (name svcURL : GoString)
    (hfree : c.muxLocked = false) :
    (∀ e, firstParseError lib svcURL routerURLs = some e →
      (Connect lib c routerURLs w name svcURL).outcome = .returned (some e)
      ∧ (Connect lib c routerURLs w name svcURL).c.connectorSockets = c.connectorSockets
      ∧ (Connect lib c routerURLs w name svcURL).trace = [.lock]
      ∧ (Connect lib c routerURLs w name svcURL).c.muxLocked = true
      ∧ (Shutdown (Connect lib c routerURLs w name svcURL).c).outcome = .blocked)
    ∧ ((Connect lib c routerURLs w name svcURL).outcome = .returned none →
      (Connect lib c routerURLs w name svcURL).c.muxLocked = false
      ∧ ∃ evs, (Connect lib c routerURLs w name svcURL).trace
          = [.lock] ++ evs ++ [.unlock, .wgWait]
        ∧ Event.unlock ∉ evs ∧ Event.wgWait ∉ evs) := by
  have hperr := parseRouterURLs_err lib routerURLs
  constructor
  · intro e he
    unfold firstParseError at he
    cases hs : lib.urlParse svcURL with
    | error e1 =>
      simp only [hs, Option.some.injEq] at he
      subst he
      simp [Connect, hfree, hs, Shutdown]
    | ok su =>
      simp only [hs] at he
      rw [← hperr] at he
      simp [Connect, hfree, hs, he, Shutdown]
  · intro hret
    cases hs : lib.urlParse svcURL with
    | error e1 => simp [Connect, hfree, hs] at hret
    | ok su =>
      cases hp : (parseRouterURLs lib routerURLs).2 with
      | some e1 => simp [Connect, hfree, hs, hp] at hret
      | none =>
        by_cases hcap : wrapInt ((routerURLs.length : Int) * w) < 0
            ∨ (lib.maxSliceCap : Int) < wrapInt ((routerURLs.length : Int) * w)
        · simp [Connect, hfree, hs, hp, hcap] at hret
        · cases hloop : socketLoop lib
              { c with muxLocked := true, serviceURL := some su,
                       routerURLs := (parseRouterURLs lib routerURLs).1 }
              w name svcURL (parseRouterURLs lib routerURLs).1 with
          | panic msg => simp [Connect, hfree, hs, hp, hcap, hloop] at hret
          | ret p =>
            obtain ⟨socks, evs⟩ := p
            have hev := socketLoop_events lib _ w name svcURL _ socks evs hloop
            refine ⟨?_, evs, ?_, hev.1, hev.2⟩
            · simp [Connect, hfree, hs, hp, hcap, hloop]
            · simp [Connect, hfree, hs, hp, hcap, hloop]

/-- C10 at a router URL with a line break in it, and at a configuration that
parses. -/
theorem Connect_parse_error_leaves_mutex_locked_witness :
    ((Connect refLib (NewConnector GoString ⟨0⟩ ⟨⟨7⟩⟩)
          ["ws://r1:8080".toList, "ws://r\n2".toList] 2
          "svc".toList "http://localhost:9000".toList).outcome
        = .returned (some (.other "net/url: invalid control character in URL"))
      ∧ (Connect refLib (NewConnector GoString ⟨0⟩ ⟨⟨7⟩⟩)
          ["ws://r1:8080".toList, "ws://r\n2".toList] 2
          "svc".toList "http://localhost:9000".toList).c.connectorSockets = []
      ∧ (Connect refLib (NewConnector GoString ⟨0⟩ ⟨⟨7⟩⟩)
          ["ws://r1:8080".toList, "ws://r\n2".toList] 2
          "svc".toList "http://localhost:9000".toList).trace = [.lock]
      ∧ (Connect refLib (NewConnector GoString ⟨0⟩ ⟨⟨7⟩⟩)
          ["ws://r1:8080".toList, "ws://r\n2".toList] 2
          "svc".toList "http://localhost:9000".toList).c.muxLocked = true
      ∧ (Shutdown (Connect refLib (NewConnector GoString ⟨0⟩ ⟨⟨7⟩⟩)
          ["ws://r1:8080".toList, "ws://r\n2".toList] 2
          "svc".toList "http://localhost:9000".toList).c).outcome = .blocked)
    ∧ ((Connect refLib (NewConnector GoString ⟨0⟩ ⟨⟨7⟩⟩)
          ["ws://r1:8080".toList] 1
          "svc".toList "http://localhost:9000".toList).c.muxLocked = false
      ∧ ∃ evs, (Connect refLib (NewConnector GoString ⟨0⟩ ⟨⟨7⟩⟩)
          ["ws://r1:8080".toList] 1
          "svc".toList "http://localhost:9000".toList).trace
            = [.lock] ++ evs ++ [.unlock, .wgWait]
        ∧ Event.unlock ∉ evs ∧ Event.wgWait ∉ evs) :=
  ⟨(Connect_parse_error_leaves_mutex_locked _ _ _ refLib (NewConnector GoString ⟨0⟩ ⟨⟨7⟩⟩)
      ["ws://r1:8080".toList, "ws://r\n2".toList] 2
      "svc".toList "http://localhost:9000".toList rfl).1 _ (by decide),
   (Connect_parse_error_leaves_mutex_locked _ _ _ refLib (NewConnector GoString ⟨0⟩ ⟨⟨7⟩⟩)
      ["ws://r1:8080".toList] 1
      "svc".toList "http://localhost:9000".toList rfl).2 (by decide)⟩

end Cranker
